import Mathlib

/-!
Verification of the cupcake-catalog scripts: a shallow embedding of
`scripts/validate-rulebook.py`, `scripts/validate-namespace.py` and
`scripts/generate-index.py`, with theorems settling the spec claims.

Conventions of the embedding:
* Python strings are `String`; all character-level operations are
  re-implemented structurally over `List Char` (ASCII fragment of the
  Python `str`/`re` semantics, which is the fragment the scripts use).
* Fallible Python code (uncaught exceptions) is `Except PyError`.
* YAML documents are the inductive `Yaml`; Python truthiness is
  `Yaml.truthy`.
* Filesystem and subprocess effects are passed in explicitly as data
  (records of booleans / outcome values), mirroring exactly how the
  scripts consume them.
-/

/-- Python uncaught exception kinds that the scripts can raise. -/
inductive PyError where
  | valueError
  | attributeError
  | typeError
  deriving DecidableEq, Repr

/-- ASCII whitespace recognized by Python's `str.strip`, `int()` and the
regex class `\s`: space, tab, newline, carriage return, vertical tab,
form feed. -/
def isWs (c : Char) : Bool :=
  c = ' ' || c = '\t' || c = '\n' || c = '\r' || c = '\x0b' || c = '\x0c'

/-- Characters matched by the regex class `[\w.]` (ASCII fragment):
letters, digits, underscore and dot. -/
def isWordDot (c : Char) : Bool :=
  c.isAlpha || c.isDigit || c = '_' || c = '.'

/-- Python `str.strip()` on a character list: drop whitespace from both
ends. -/
def stripChars (cs : List Char) : List Char :=
  ((cs.dropWhile isWs).reverse.dropWhile isWs).reverse

/-- Python `str.strip()`. -/
def pyStrip (s : String) : String := ⟨stripChars s.data⟩

/-- Python `s.split(".")` on a character list: split on every dot,
keeping empty segments (so `""` gives `[""]`, `"a..b"` gives
`["a", "", "b"]`), exactly as `str.split` with an explicit separator. -/
def splitDot : List Char → List (List Char)
  | [] => [[]]
  | c :: cs =>
    if c = '.' then [] :: splitDot cs
    else
      match splitDot cs with
      | [] => [[c]]
      | h :: t => (c :: h) :: t

/-- Python `".".join` of character-list segments. -/
def joinDot : List (List Char) → List Char
  | [] => []
  | [x] => x
  | x :: xs => x ++ '.' :: joinDot xs

/-- Python `s.rsplit(".", 1)[0]`: everything before the last dot, or the
whole string when there is no dot. -/
def rsplitHeadDot (s : String) : String :=
  let parts := splitDot s.data
  if parts.length ≤ 1 then s else ⟨joinDot parts.dropLast⟩

/-- Python `s.startswith(p)`. -/
def pyStartsWith (s p : String) : Bool := p.data.isPrefixOf s.data

/-- Python `s.endswith(p)`. -/
def pyEndsWith (s p : String) : Bool := p.data.isSuffixOf s.data

/-- Fuel-indexed worker for `pyReplace`: replaces non-overlapping
occurrences of `pat` left to right, as Python `str.replace`. The fuel is
the length of the input, which bounds the number of steps since every
step consumes at least one character. -/
def replaceAux (pat rep : List Char) : Nat → List Char → List Char
  | _, [] => []
  | 0, s => s
  | fuel + 1, c :: cs =>
    if pat.isPrefixOf (c :: cs) then
      rep ++ replaceAux pat rep fuel ((c :: cs).drop pat.length)
    else
      c :: replaceAux pat rep fuel cs

/-- Python `s.replace(pat, rep)` for a non-empty `pat` (the scripts only
replace non-empty patterns). -/
def pyReplace (s pat rep : String) : String :=
  if pat.data.isEmpty then s
  else ⟨replaceAux pat.data rep.data s.data.length s.data⟩

/-- Valid digit tail for Python `int()`: digits with single underscores
allowed between digits (`1_0` is legal, `1__0`, `1_` and `_1` are not). -/
def digitsRest : List Char → Bool
  | [] => true
  | '_' :: cs =>
    match cs with
    | [] => false
    | d :: cs2 => d.isDigit && digitsRest cs2
  | c :: cs => c.isDigit && digitsRest cs

/-- Valid full digit sequence for Python `int()`: non-empty, starts with
a digit, underscores only between digits. -/
def digitsOk : List Char → Bool
  | [] => false
  | c :: cs => c.isDigit && digitsRest cs

/-- Numeric value of a digit sequence, skipping underscores. -/
def digitsVal (cs : List Char) : Nat :=
  cs.foldl (fun acc c => if c = '_' then acc else acc * 10 + (c.toNat - '0'.toNat)) 0

/-- Python `int(s)` (ASCII fragment): strip surrounding whitespace,
accept an optional sign followed by a valid digit sequence; anything
else raises `ValueError`. -/
def pyInt (s : String) : Except PyError Int :=
  let t := stripChars s.data
  match t with
  | '+' :: ds => if digitsOk ds then .ok (digitsVal ds) else .error .valueError
  | '-' :: ds => if digitsOk ds then .ok (-(digitsVal ds : Int)) else .error .valueError
  | ds => if digitsOk ds then .ok (digitsVal ds) else .error .valueError

/-- Python tuple `<` on integer tuples: lexicographic, with a proper
prefix smaller than its extension. -/
def tupleLt : List Int → List Int → Bool
  | [], [] => false
  | [], _ :: _ => true
  | _ :: _, [] => false
  | a :: as, b :: bs => a < b || (a = b && tupleLt as bs)

/-- YAML scalar / collection values as produced by `yaml.safe_load`
(floats are not modelled; the manifests in the claims use strings,
integers, booleans, lists and mappings). A mapping is an ordered
association list, as Python dicts preserve insertion order. -/
inductive Yaml where
  | null
  | bool (b : Bool)
  | int (n : Int)
  | str (s : String)
  | list (xs : List Yaml)
  | dict (kvs : List (String × Yaml))
  deriving Repr

/-- Python truthiness of a YAML value: `None`, `False`, `0`, `""`, `[]`
and `{}` are falsy, everything else truthy. -/
def Yaml.truthy : Yaml → Bool
  | .null => false
  | .bool b => b
  | .int n => n ≠ 0
  | .str s => s ≠ ""
  | .list xs => !xs.isEmpty
  | .dict kvs => !kvs.isEmpty

/-- Python `y == "s"` for a string literal `s`: true exactly when `y` is
that string (Python equality between a string and any non-string is
false). -/
def Yaml.eqStr (y : Yaml) (s : String) : Bool :=
  match y with
  | .str t => t = s
  | _ => false

/-- Python `str(y)` for scalar values (the container cases are
abbreviated to their opening repr character; no claim inspects the repr
of a container). -/
def Yaml.pyStr : Yaml → String
  | .null => "None"
  | .bool b => if b then "True" else "False"
  | .int n => toString n
  | .str s => s
  | .list _ => "["
  | .dict _ => "\x7b"

/-- Python `d.get(k)` on a YAML value: `None` default on a mapping,
`AttributeError` on anything else. -/
def pyGet (y : Yaml) (k : String) : Except PyError Yaml :=
  match y with
  | .dict kvs => .ok ((kvs.lookup k).getD .null)
  | _ => .error .attributeError

/-- Python `d.get(k, default)` on a YAML value: `AttributeError` on a
non-mapping. -/
def pyGetD (y : Yaml) (k : String) (d : Yaml) : Except PyError Yaml :=
  match y with
  | .dict kvs => .ok ((kvs.lookup k).getD d)
  | _ => .error .attributeError

/-- Total mapping lookup used to state check functions: `None` default,
`None` on a non-mapping (only applied where the mapping shape is
already known). -/
def yGet (y : Yaml) (k : String) : Yaml :=
  match y with
  | .dict kvs => (kvs.lookup k).getD .null
  | _ => .null

/-- Total variant of `d.get(k, default)`, used only where the mapping
shape is already known. -/
def yGetD (y : Yaml) (k : String) (d : Yaml) : Yaml :=
  match y with
  | .dict kvs => (kvs.lookup k).getD d
  | _ => d

/-- Whether a YAML value is a mapping (`isinstance(x, dict)`). -/
def Yaml.isDict : Yaml → Bool
  | .dict _ => true
  | _ => false

/-! ## validate-rulebook.py: manifest schema validation -/

/-- The harness enumeration `VALID_HARNESSES` of validate-rulebook.py
(a set in the source; only membership is used). -/
def VALID_HARNESSES : List String := ["claude", "cursor", "opencode", "factory"]

/-- Body of `NAME_PATTERN = ^[a-z][a-z0-9-]*$` without the anchors: a
lowercase letter followed by lowercase letters, digits and hyphens. -/
def nameCore : List Char → Bool
  | [] => false
  | c :: rest =>
    ('a' ≤ c && c ≤ 'z') && rest.all (fun d => ('a' ≤ d && d ≤ 'z') || d.isDigit || d = '-')

/-- `NAME_PATTERN.match(s)` succeeds: the whole string matches, where the
regex `$` also tolerates one trailing newline (Python `$` semantics). -/
def namePatternAccepts (s : String) : Bool :=
  nameCore s.data || (s.data.getLast? = some '\n' && nameCore s.data.dropLast)

/-- Consume one or more leading decimal digits (`\d+`); return the rest
of the input, or `none` when no digit is present. -/
def chompDigits (cs : List Char) : Option (List Char) :=
  if (cs.takeWhile Char.isDigit).isEmpty then none
  else some (cs.dropWhile Char.isDigit)

/-- `VERSION_PATTERN.match(s)` succeeds, for
`VERSION_PATTERN = ^\d+\.\d+\.\d+`: the string starts with three
dot-separated runs of digits. There is no trailing anchor, so arbitrary
text may follow (for example `1.0.0-rc1` is accepted). -/
def versionPatternAccepts (s : String) : Bool :=
  match chompDigits s.data with
  | none => false
  | some r1 =>
    match r1 with
    | '.' :: r2 =>
      match chompDigits r2 with
      | none => false
      | some r3 =>
        match r3 with
        | '.' :: r4 => (chompDigits r4).isSome
        | _ => false
    | _ => false

/-- Validation errors of validate-rulebook.py; each constructor stands
for one distinct error message produced by the script, with the
interpolated values as payload. -/
inductive VErr where
  | badApiVersion (got : Yaml)
  | badKind (got : Yaml)
  | metadataRequired
  | nameRequired
  | nameBadPattern (got : String)
  | nameDirMismatch (got dir : String)
  | versionRequired
  | versionBadPattern (got : Yaml)
  | descriptionRequired
  | descriptionTooShort
  | harnessesRequired
  | harnessesNotArray
  | harnessesEmpty
  | invalidHarness (h : Yaml)
  | maintainerNotObject (i : Nat)
  | maintainerNameRequired (i : Nat)
  | readmeRequired
  | policiesDirRequired
  | missingEvaluateRego
  | missingHarnessDir (h : String)
  | noRegoFiles (h : String)
  | manifestNotFound
  | invalidYamlManifest
  | emptyManifest

/-- The single warning message of validate-rulebook.py. -/
inductive WarnMsg where
  | changelogRecommended

/-- The `apiVersion` check of `validate_manifest`, in isolation. -/
def apiVersionCheck (m : Yaml) : List VErr :=
  if (yGet m "apiVersion").eqStr "cupcake.dev/v1" then []
  else [VErr.badApiVersion (yGet m "apiVersion")]

/-- The `kind` check of `validate_manifest`, in isolation. -/
def kindCheck (m : Yaml) : List VErr :=
  if (yGet m "kind").eqStr "Rulebook" then [] else [VErr.badKind (yGet m "kind")]

/-- The `metadata.name` check of `validate_manifest`, in isolation (the
script raises `TypeError` on a truthy non-string name; that branch is
modelled in `validate_manifest` itself). -/
def nameCheck (md : Yaml) (dirName : String) : List VErr :=
  let name := yGet md "name"
  if !name.truthy then [VErr.nameRequired]
  else
    match name with
    | .str s =>
      if !namePatternAccepts s then [VErr.nameBadPattern s]
      else if s ≠ dirName then [VErr.nameDirMismatch s dirName]
      else []
    | _ => []

/-- The `metadata.version` check of `validate_manifest`, in isolation. -/
def versionCheck (md : Yaml) : List VErr :=
  let version := yGet md "version"
  if !version.truthy then [VErr.versionRequired]
  else if !versionPatternAccepts version.pyStr then [VErr.versionBadPattern version]
  else []

/-- The `metadata.description` check of `validate_manifest`, in
isolation. -/
def descriptionCheck (md : Yaml) : List VErr :=
  let desc := yGet md "description"
  if !desc.truthy then [VErr.descriptionRequired]
  else if (stripChars desc.pyStr.data).length < 10 then [VErr.descriptionTooShort]
  else []

/-- The `metadata.harnesses` check of `validate_manifest`, in isolation.
The `harnessesEmpty` branch mirrors the source's `len(harnesses) == 0`
test, although a truthy list is never empty. -/
def harnessesCheck (md : Yaml) : List VErr :=
  let hs := yGet md "harnesses"
  if !hs.truthy then [VErr.harnessesRequired]
  else
    match hs with
    | .list xs =>
      if xs.isEmpty then [VErr.harnessesEmpty]
      else xs.filterMap (fun h =>
        if VALID_HARNESSES.any (fun v => h.eqStr v) then none
        else some (VErr.invalidHarness h))
    | _ => [VErr.harnessesNotArray]

/-- The `metadata.maintainers` check of `validate_manifest`, in
isolation. -/
def maintainersCheck (md : Yaml) : List VErr :=
  let ms := yGetD md "maintainers" (.list [])
  if ms.truthy then
    match ms with
    | .list xs =>
      xs.enum.filterMap (fun p =>
        match p.2 with
        | .dict mkvs => if ((mkvs.lookup "name").getD .null).truthy then none
                        else some (VErr.maintainerNameRequired p.1)
        | _ => some (VErr.maintainerNotObject p.1))
    | _ => []
  else []

/-- The `validate_manifest` function of validate-rulebook.py: sequential
checks appending to one error list. Raises `AttributeError` when the
manifest is not a mapping (`manifest.get`), and `TypeError` when
`metadata.name` is truthy but not a string (`NAME_PATTERN.match` on a
non-string). -/
def validate_manifest (manifest : Yaml) (dirName : String) : Except PyError (List VErr) := do
  let apiV ← pyGet manifest "apiVersion"
  let errs1 := if apiV.eqStr "cupcake.dev/v1" then [] else [VErr.badApiVersion apiV]
  let kind ← pyGet manifest "kind"
  let errs2 := errs1 ++ (if kind.eqStr "Rulebook" then [] else [VErr.badKind kind])
  let metadata ← pyGet manifest "metadata"
  match metadata with
  | .dict mkvs =>
    let md := Yaml.dict mkvs
    let name := yGet md "name"
    let nameErrs ←
      if !name.truthy then pure [VErr.nameRequired]
      else
        match name with
        | .str s =>
          pure (if !namePatternAccepts s then [VErr.nameBadPattern s]
                else if s ≠ dirName then [VErr.nameDirMismatch s dirName]
                else [])
        | _ => Except.error .typeError
    let version := yGet md "version"
    let verErrs := if !version.truthy then [VErr.versionRequired]
      else if !versionPatternAccepts version.pyStr then [VErr.versionBadPattern version]
      else []
    let desc := yGet md "description"
    let descErrs := if !desc.truthy then [VErr.descriptionRequired]
      else if (stripChars desc.pyStr.data).length < 10 then [VErr.descriptionTooShort]
      else []
    let hs := yGet md "harnesses"
    let hErrs := if !hs.truthy then [VErr.harnessesRequired]
      else
        match hs with
        | .list xs =>
          if xs.isEmpty then [VErr.harnessesEmpty]
          else xs.filterMap (fun h =>
            if VALID_HARNESSES.any (fun v => h.eqStr v) then none
            else some (VErr.invalidHarness h))
        | _ => [VErr.harnessesNotArray]
    let mts := yGetD md "maintainers" (.list [])
    let mErrs := if mts.truthy then
        match mts with
        | .list xs =>
          xs.enum.filterMap (fun p =>
            match p.2 with
            | .dict mkvs2 => if ((mkvs2.lookup "name").getD .null).truthy then none
                             else some (VErr.maintainerNameRequired p.1)
            | _ => some (VErr.maintainerNotObject p.1))
        | _ => []
      else []
    pure (errs2 ++ nameErrs ++ verErrs ++ descErrs ++ hErrs ++ mErrs)
  | _ => pure (errs2 ++ [VErr.metadataRequired])

/-! ## validate-rulebook.py: structure validation and entry point -/

/-- The filesystem facts validate-rulebook.py consults about a rulebook
directory, each field one `Path.exists` / `Path.glob` query of the
script. -/
structure FS where
  readmeExists : Bool
  policiesDirExists : Bool
  evaluateRegoExists : Bool
  changelogExists : Bool
  harnessDirExists : String → Bool
  harnessRegoFiles : String → List String

/-- One iteration of the harness loop of `validate_structure`: raises
`TypeError` when the declared harness value is not a string
(`policies_dir / harness` on a non-string). -/
def harnessStep (fs : FS) (acc : List VErr) (h : Yaml) : Except PyError (List VErr) :=
  match h with
  | .str s =>
    if !fs.harnessDirExists s then pure (acc ++ [VErr.missingHarnessDir s])
    else if (fs.harnessRegoFiles s).isEmpty then pure (acc ++ [VErr.noRegoFiles s])
    else pure acc
  | _ => Except.error .typeError

/-- The `validate_structure` function of validate-rulebook.py: README
check, `policies/` check with early return, `system/evaluate.rego`
check, then one pass of `harnessStep` over the declared harnesses. -/
def validate_structure (fs : FS) (harnesses : List Yaml) : Except PyError (List VErr) := do
  let errs1 := if fs.readmeExists then [] else [VErr.readmeRequired]
  if !fs.policiesDirExists then
    pure (errs1 ++ [VErr.policiesDirRequired])
  else
    let errs2 := errs1 ++ (if fs.evaluateRegoExists then [] else [VErr.missingEvaluateRego])
    harnesses.foldlM (harnessStep fs) errs2

/-- The per-harness body of the `validate_structure` loop, in
isolation (for a string harness). -/
def harnessStructCheck (fs : FS) (s : String) : List VErr :=
  if !fs.harnessDirExists s then [VErr.missingHarnessDir s]
  else if (fs.harnessRegoFiles s).isEmpty then [VErr.noRegoFiles s]
  else []

/-- A rulebook directory as validate-rulebook.py observes it: its name,
whether `manifest.yaml` exists, the outcome of `yaml.safe_load` on it
(`Except.error` standing for a raised `yaml.YAMLError`), and the
filesystem facts. -/
structure Rulebook where
  dirName : String
  manifestExists : Bool
  manifestLoad : Except Unit Yaml
  fs : FS

/-- The `validate_rulebook` function of validate-rulebook.py: single
top-level errors for a missing, unparseable or empty manifest;
otherwise manifest validation followed by structure validation when the
declared harness list is a truthy list, and the CHANGELOG warning. -/
def validate_rulebook (rb : Rulebook) : Except PyError (List VErr × List WarnMsg) := do
  if !rb.manifestExists then
    pure ([VErr.manifestNotFound], [])
  else
    match rb.manifestLoad with
    | .error _ => pure ([VErr.invalidYamlManifest], [])
    | .ok manifest =>
      if !manifest.truthy then pure ([VErr.emptyManifest], [])
      else do
        let errs1 ← validate_manifest manifest rb.dirName
        let md ← pyGetD manifest "metadata" (.dict [])
        let hs ← pyGetD md "harnesses" (.list [])
        let structErrs ←
          if hs.truthy then
            match hs with
            | .list xs => validate_structure rb.fs xs
            | _ => pure []
          else pure []
        let warns := if rb.fs.changelogExists then [] else [WarnMsg.changelogRecommended]
        pure (errs1 ++ structErrs, warns)

/-- The exit-code computation of validate-rulebook.py's `main` for a
rulebook that is reached by validation: exit 1 when the error list is
non-empty, exit 0 otherwise; warnings are only printed. -/
def rbExitCode (rb : Rulebook) : Except PyError Nat := do
  let res ← validate_rulebook rb
  pure (if res.1.isEmpty then 0 else 1)

/-- Replace only the CHANGELOG.md existence fact of a rulebook. -/
def setChangelog (rb : Rulebook) (b : Bool) : Rulebook :=
  { rb with fs := { rb.fs with changelogExists := b } }

/-! ## validate-namespace.py: package extraction and namespace rules -/

/-- Attempt the regex `\s*package\s+([\w.]+)` at one position of the
input (the position must be a line start for the `^` anchor, which the
caller guarantees). Returns the captured group. Greedy matching without
backtracking is exact here because no whitespace character can begin the
literal `package` and no `[\w.]` character is whitespace. -/
def matchPackageAt (cs : List Char) : Option String :=
  let cs1 := cs.dropWhile isWs
  if ("package".data).isPrefixOf cs1 then
    let cs2 := cs1.drop 7
    if (cs2.takeWhile isWs).isEmpty then none
    else
      let grp := (cs2.dropWhile isWs).takeWhile isWordDot
      if grp.isEmpty then none else some ⟨grp⟩
  else none

/-- Walk the input trying `matchPackageAt` at every line start, in
order; the flag records whether the current position is a line start. -/
def searchPkgAux : Bool → List Char → Option String
  | _, [] => none
  | atStart, c :: cs =>
    if atStart then
      match matchPackageAt (c :: cs) with
      | some p => some p
      | none => searchPkgAux (c = '\n') cs
    else searchPkgAux (c = '\n') cs

/-- `PACKAGE_PATTERN.search(content)` of validate-namespace.py, for
`PACKAGE_PATTERN = ^\s*package\s+([\w.]+)` with `re.MULTILINE`: the
captured package name of the leftmost match, if any. -/
def packagePatternSearch (content : String) : Option String :=
  searchPkgAux true content.data

/-- The `RESERVED_PREFIXES` list of validate-namespace.py. -/
def reservedNamespaces : List String :=
  ["cupcake.policies", "cupcake.global", "cupcake.system", "cupcake.helpers"]

/-- Namespace validation errors of validate-namespace.py; each
constructor stands for one distinct error message, with the
interpolated values (relative path, found package, expected
package/namespace) as payload. -/
inductive NsErr where
  | cannotRead (rel : String)
  | noPackageDecl (rel : String)
  | reservedNamespace (rel pkg res exp : String)
  | policyWrongNs (rel pkg exp sysExp : String)
  | helperWrongNs (rel pkg exp : String)
  | systemNotExact (rel pkg exp : String)
  | cannotDetermineName
  | noPoliciesDir
  | noRegoFound
  deriving DecidableEq, Repr

/-- Whether an error is the reserved-namespace violation. -/
def NsErr.isReserved : NsErr → Bool
  | .reservedNamespace _ _ _ _ => true
  | _ => false

/-- The `normalize_name` function of validate-namespace.py: hyphens to
underscores. -/
def normalize_name (name : String) : String := pyReplace name "-" "_"

/-- The `validate_policy_file` function of validate-namespace.py, with
the file content passed in (`none` standing for an `OSError` during
`read_text`) and `rel` the displayed path relative to the rulebook. -/
def validate_policy_file (content : Option String) (expPfx rel : String) : List NsErr :=
  match content with
  | none => [NsErr.cannotRead rel]
  | some text =>
    match packagePatternSearch text with
    | none => [NsErr.noPackageDecl rel]
    | some pkg =>
      match reservedNamespaces.find? (fun res => pyStartsWith pkg res) with
      | some res => [NsErr.reservedNamespace rel pkg res expPfx]
      | none =>
        if pyStartsWith pkg expPfx then []
        else
          let sysPfx := pyReplace expPfx ".policies" ".system"
          if pyStartsWith pkg sysPfx ||
             pyStartsWith pkg (rsplitHeadDot expPfx ++ ".system") then []
          else [NsErr.policyWrongNs rel pkg expPfx sysPfx]

/-- The `validate_helper_file` function of validate-namespace.py: only a
package-declaration check and the expected-namespace check — the
reserved-namespace list is not consulted. -/
def validate_helper_file (content : Option String) (expPfx rel : String) : List NsErr :=
  match content with
  | none => [NsErr.cannotRead rel]
  | some text =>
    match packagePatternSearch text with
    | none => [NsErr.noPackageDecl rel]
    | some pkg =>
      if pyStartsWith pkg expPfx then [] else [NsErr.helperWrongNs rel pkg expPfx]

/-- The `validate_system_file` function of validate-namespace.py: only a
package-declaration check and an exact-equality check against the
expected system package — the reserved-namespace list is not
consulted. -/
def validate_system_file (content : Option String) (expPkg rel : String) : List NsErr :=
  match content with
  | none => [NsErr.cannotRead rel]
  | some text =>
    match packagePatternSearch text with
    | none => [NsErr.noPackageDecl rel]
    | some pkg =>
      if pkg ≠ expPkg then [NsErr.systemNotExact rel pkg expPkg] else []

/-- A rulebook's policy tree as validate-namespace.py observes it: the
rulebook name read from the manifest (`none` when the manifest is
missing, unparseable or has no name key), and for each of the three
directories, `none` when the directory does not exist, otherwise the
discovered `.rego` files as (relative path, content) pairs with `none`
content standing for a read failure. -/
structure NsTree where
  manifestName : Option String
  policiesFiles : Option (List (String × Option String))
  helpersFiles : Option (List (String × Option String))
  systemFiles : Option (List (String × Option String))

/-- The expected policies namespace for a rulebook name. -/
def expectedPoliciesNs (name : String) : String :=
  "cupcake.catalog." ++ normalize_name name ++ ".policies"

/-- The expected helpers namespace for a rulebook name. -/
def expectedHelpersNs (name : String) : String :=
  "cupcake.catalog." ++ normalize_name name ++ ".helpers"

/-- The expected system package for a rulebook name. -/
def expectedSystemPkg (name : String) : String :=
  "cupcake.catalog." ++ normalize_name name ++ ".system"

/-- The `validate_namespace` function of validate-namespace.py: resolve
the rulebook name, require a non-empty `policies/` tree, then validate
every policies file, every helpers file (when `helpers/` exists) and
every system file (when `system/` exists), concatenating the errors. -/
def validate_namespace (t : NsTree) : List NsErr :=
  match t.manifestName with
  | none => [NsErr.cannotDetermineName]
  | some name =>
    if name = "" then [NsErr.cannotDetermineName]
    else
      match t.policiesFiles with
      | none => [NsErr.noPoliciesDir]
      | some pfs =>
        if pfs.isEmpty then [NsErr.noRegoFound]
        else
          (pfs.flatMap fun f => validate_policy_file f.2 (expectedPoliciesNs name) f.1)
          ++ (match t.helpersFiles with
              | none => []
              | some hfs => hfs.flatMap fun f =>
                  validate_helper_file f.2 (expectedHelpersNs name) f.1)
          ++ (match t.systemFiles with
              | none => []
              | some sfs => sfs.flatMap fun f =>
                  validate_system_file f.2 (expectedSystemPkg name) f.1)

/-! ## generate-index.py: release resolution and index generation -/

/-- Outcome of one `gh` subprocess invocation plus JSON decode: either a
successfully parsed value, or any of the failures the script catches
(`CalledProcessError`, `FileNotFoundError`, `JSONDecodeError`). -/
inductive GhOutcome (α : Type) where
  | success (v : α)
  | failure

/-- The `get_release_tags` function of generate-index.py: the parsed tag
list on success, the empty list on any caught failure. -/
def get_release_tags (o : GhOutcome (List String)) : List String :=
  match o with
  | .success tags => tags
  | .failure => []

/-- One release asset as `gh release view` reports it; each field is
read with `.get`, so each is optional. -/
structure Asset where
  name : Option String
  url : Option String
  digest : Option String
  deriving DecidableEq, Repr

/-- One release as `gh release view` reports it. -/
structure ReleaseInfo where
  createdAt : Option String
  assets : List Asset
  deriving DecidableEq, Repr

/-- The `get_release_info` function of generate-index.py: the parsed
release on success, `None` on any caught failure. -/
def get_release_info (o : GhOutcome ReleaseInfo) : Option ReleaseInfo :=
  match o with
  | .success r => some r
  | .failure => none

/-- The external release registry as the script queries it: the outcome
of the one bulk listing, and the outcome of the per-tag detail lookup. -/
structure Registry where
  listOutcome : GhOutcome (List String)
  viewOutcome : String → GhOutcome ReleaseInfo

/-- Ambient values of one generate-index.py run: the current UTC
timestamp (every `datetime.now(timezone.utc).isoformat()` call within a
run is treated as one value) and the hex SHA-256 used for the
placeholder digest, passed in abstractly. -/
structure GenEnv where
  now : String
  sha256hex : String → String

/-- The fields of a parsed manifest that generate-index.py uses to build
an entry (scalar fields assumed strings, as in every manifest the
catalog accepts; `harnesses`/`keywords` are copied through opaquely). -/
structure ManifestData where
  name : String
  version : String
  description : String
  harnesses : List String
  keywords : List String
  deprecated : Bool
  deriving DecidableEq, Repr

/-- One catalog index entry. `created`, `urls` and `digest` are `none`
when the corresponding key is absent from the generated mapping. -/
structure Entry where
  name : String
  version : String
  description : String
  harnesses : List String
  keywords : List String
  deprecated : Bool
  created : Option String := none
  urls : Option (List String) := none
  digest : Option String := none
  deriving DecidableEq, Repr

/-- The sort key `tuple(map(int, version.split(".")))` of
generate-index.py: `ValueError` when any dot-separated segment is not a
valid Python integer literal. -/
def versionKey (v : String) : Except PyError (List Int) :=
  (splitDot v.data).mapM (fun seg => pyInt ⟨seg⟩)

/-- The version key with a default for the error case; equal to the real
key whenever the key computation succeeds. -/
def keyD (v : String) : List Int :=
  match versionKey v with
  | .ok k => k
  | .error _ => []

/-- The order in which Python's stable `sort(key=..., reverse=True)`
arranges two entries: `a` may stay before `b` exactly when `a`'s version
key is not smaller than `b`'s. -/
def entryGeVer (a b : Entry) : Prop :=
  tupleLt (keyD a.version) (keyD b.version) = false

instance : DecidableRel entryGeVer := fun a b =>
  inferInstanceAs (Decidable (tupleLt (keyD a.version) (keyD b.version) = false))

/-- The per-group sort of generate-index.py:
`entries[name].sort(key=lambda e: tuple(map(int, e["version"].split("."))), reverse=True)`.
Python first computes every key left to right (raising `ValueError` on a
non-numeric segment), then stably sorts descending. A stable sort for a
total preorder has a unique result, so insertion sort with `entryGeVer`
produces exactly the list Python produces. -/
def sortEntriesDesc (es : List Entry) : Except PyError (List Entry) := do
  let _ ← es.mapM (fun e => versionKey e.version)
  pure (es.insertionSort entryGeVer)

/-- Append an entry to its name's group, creating the group at the end
on first sight — the behavior of the `entries` insertion-ordered dict of
generate-index.py. -/
def addEntry (gs : List (String × List Entry)) (e : Entry) : List (String × List Entry) :=
  if gs.any (fun g => g.1 = e.name) then
    gs.map (fun g => if g.1 = e.name then (g.1, g.2 ++ [e]) else g)
  else gs ++ [(e.name, [e])]

/-- The entry-building block of `generate_index` for one manifest:
derive the tag, consult the resolved tag set, and populate `created`,
`urls` and `digest` exactly as the three branches of the script do. -/
def buildEntry (tags : List String) (reg : Registry) (env : GenEnv) (m : ManifestData) : Entry :=
  let tag := m.name ++ "-" ++ m.version
  let base : Entry :=
    { name := m.name, version := m.version, description := pyStrip m.description,
      harnesses := m.harnesses, keywords := m.keywords, deprecated := m.deprecated }
  if tags.contains tag then
    match get_release_info (reg.viewOutcome tag) with
    | some release =>
      let e1 := { base with created := some (release.createdAt.getD env.now) }
      match release.assets.find? (fun a => pyEndsWith (a.name.getD "") ".tar.gz") with
      | some tarball =>
        let e2 := { e1 with urls := some [tarball.url.getD ""] }
        if (tarball.digest.getD "") ≠ "" then { e2 with digest := tarball.digest }
        else { e2 with digest := some ("sha256:" ++ env.sha256hex tag) }
      | none => e1
    | none => { base with created := some env.now }
  else { base with created := some env.now }

/-- The generated catalog index document. -/
structure CatalogIndex where
  apiVersion : String
  kind : String
  generated : String
  entries : List (String × List Entry)
  deriving DecidableEq, Repr

/-- The `generate_index` function of generate-index.py over the
successfully parsed manifests in directory-scan order: build one entry
per manifest, group by name, then sort every group's entries by version
descending (the sort propagates a `ValueError` from a non-numeric
version segment, aborting generation). -/
def generate_index (ms : List ManifestData) (reg : Registry) (env : GenEnv) :
    Except PyError CatalogIndex := do
  let release_tags := get_release_tags reg.listOutcome
  let groups := ms.foldl (fun gs m => addEntry gs (buildEntry release_tags reg env m)) []
  let sortedGroups ← groups.mapM (fun g => do
    let es ← sortEntriesDesc g.2
    pure (g.1, es))
  pure { apiVersion := "cupcake.dev/v1", kind := "CatalogIndex",
         generated := env.now, entries := sortedGroups }

/-- The `parse_manifest` function of generate-index.py: a caught
`yaml.YAMLError`/`OSError` yields `None`; otherwise the manifest is
screened for `apiVersion`, `kind` and truthy `metadata.name` /
`metadata.version`, yielding `None` on any mismatch. The screening
itself raises `AttributeError` when the loaded document is not a
mapping — in particular when the file is empty and `yaml.safe_load`
returns `None` — because `manifest.get` is called on it unguarded. -/
def parse_manifest (load : Except Unit Yaml) : Except PyError (Option Yaml) :=
  match load with
  | .error _ => .ok none
  | .ok manifest => do
    let apiV ← pyGet manifest "apiVersion"
    if !apiV.eqStr "cupcake.dev/v1" then pure none
    else do
      let kind ← pyGet manifest "kind"
      if !kind.eqStr "Rulebook" then pure none
      else do
        let md ← pyGetD manifest "metadata" (.dict [])
        let name ← pyGet md "name"
        let version ← pyGet md "version"
        if !name.truthy || !version.truthy then pure none
        else pure (some manifest)

/-! ## Concrete example inputs used by individual claim theorems -/

/-- A failure-only registry: the bulk listing and every per-tag lookup
fail (external tool absent / unreachable / unparseable). -/
def failReg : Registry := { listOutcome := .failure, viewOutcome := fun _ => .failure }

/-- A fixed run environment for concrete evaluations. -/
def env0 : GenEnv := { now := "2026-01-01T00:00:00+00:00", sha256hex := fun _ => "" }

/-- Example manifest data: rulebook `foo`, version `1.2.0`. -/
def exFoo120 : ManifestData :=
  { name := "foo", version := "1.2.0", description := "demo policies",
    harnesses := ["claude"], keywords := [], deprecated := false }

/-- Example manifest data: rulebook `foo`, version `1.10.0`. -/
def exFoo1100 : ManifestData := { exFoo120 with version := "1.10.0" }

/-- Example manifest data: rulebook `foo`, version `1.0.0-rc1` — accepted
by the validator's leading version pattern yet non-numeric in its third
dot-separated segment. -/
def exFooRc : ManifestData := { exFoo120 with version := "1.0.0-rc1" }

/-- A fully valid manifest document except that its version carries the
`-rc1` suffix tolerated by the unanchored version pattern. -/
def exRcManifest : Yaml := .dict
  [ ("apiVersion", .str "cupcake.dev/v1"),
    ("kind", .str "Rulebook"),
    ("metadata", .dict
      [ ("name", .str "foo"),
        ("version", .str "1.0.0-rc1"),
        ("description", .str "a fine description"),
        ("harnesses", .list [.str "claude"]) ]) ]

/-- Example filesystem facts: README missing, `policies/` present,
`system/evaluate.rego` missing, the `claude` harness directory present
but empty. -/
def exFS7 : FS :=
  { readmeExists := false, policiesDirExists := true, evaluateRegoExists := false,
    changelogExists := true, harnessDirExists := fun h => h = "claude",
    harnessRegoFiles := fun _ => [] }

/-- Example rulebook whose manifest file parses to the empty document. -/
def exRB8 : Rulebook :=
  { dirName := "foo", manifestExists := true, manifestLoad := .ok .null,
    fs := { readmeExists := true, policiesDirExists := true, evaluateRegoExists := true,
            changelogExists := true, harnessDirExists := fun _ => true,
            harnessRegoFiles := fun _ => ["allow.rego"] } }

/-- Example rulebook that validates cleanly except for a missing
CHANGELOG.md (one warning, zero errors). -/
def exRB9 : Rulebook :=
  { dirName := "foo", manifestExists := true,
    manifestLoad := .ok (.dict
      [ ("apiVersion", .str "cupcake.dev/v1"),
        ("kind", .str "Rulebook"),
        ("metadata", .dict
          [ ("name", .str "foo"),
            ("version", .str "1.0.0"),
            ("description", .str "a fine description"),
            ("harnesses", .list [.str "claude"]) ]) ]),
    fs := { readmeExists := true, policiesDirExists := true, evaluateRegoExists := true,
            changelogExists := false, harnessDirExists := fun _ => true,
            harnessRegoFiles := fun _ => ["allow.rego"] } }

/-- Example manifest with a wrong `apiVersion`, a wrong `kind` and valid
metadata fields. -/
def exManifest6 : Yaml := .dict
  [ ("apiVersion", .str "wrong/v9"),
    ("kind", .str "Widget"),
    ("metadata", .dict
      [ ("name", .str "foo"),
        ("version", .str "1.0.0"),
        ("description", .str "a fine description"),
        ("harnesses", .list [.str "claude"]) ]) ]

/-! ## Order facts about the version-tuple comparison -/

/-- The descending key order is total: of any two keys, one is not
smaller than the other. -/
theorem tupleLt_false_total (a : List Int) : ∀ b, tupleLt a b = false ∨ tupleLt b a = false := by
  induction a with
  | nil => intro b; cases b <;> simp [tupleLt]
  | cons x xs ih =>
    intro b
    cases b with
    | nil => simp [tupleLt]
    | cons y ys =>
      rcases lt_trichotomy x y with h | h | h
      · right
        simp only [tupleLt, Bool.or_eq_false_iff, Bool.and_eq_false_iff,
          decide_eq_false_iff_not]
        exact ⟨by omega, Or.inl (by omega)⟩
      · rcases ih ys with h2 | h2
        · left
          simp only [tupleLt, Bool.or_eq_false_iff, Bool.and_eq_false_iff,
            decide_eq_false_iff_not]
          exact ⟨by omega, Or.inr h2⟩
        · right
          simp only [tupleLt, Bool.or_eq_false_iff, Bool.and_eq_false_iff,
            decide_eq_false_iff_not]
          exact ⟨by omega, Or.inr h2⟩
      · left
        simp only [tupleLt, Bool.or_eq_false_iff, Bool.and_eq_false_iff,
          decide_eq_false_iff_not]
        exact ⟨by omega, Or.inl (by omega)⟩

/-- The descending key order is transitive. -/
theorem tupleLt_false_trans : ∀ a b c : List Int,
    tupleLt a b = false → tupleLt b c = false → tupleLt a c = false := by
  intro a
  induction a with
  | nil =>
    intro b c h1 h2
    cases b <;> cases c <;> simp_all [tupleLt]
  | cons x xs ih =>
    intro b c h1 h2
    cases b with
    | nil =>
      cases c with
      | nil => simp [tupleLt]
      | cons z zs => simp [tupleLt] at h2
    | cons y ys =>
      cases c with
      | nil => simp [tupleLt]
      | cons z zs =>
        simp only [tupleLt, Bool.or_eq_false_iff, Bool.and_eq_false_iff,
          decide_eq_false_iff_not] at h1 h2 ⊢
        obtain ⟨hxy, h1'⟩ := h1
        obtain ⟨hyz, h2'⟩ := h2
        refine ⟨by omega, ?_⟩
        by_cases hxz : x = z
        · rcases h1' with h | h
          · exact absurd (by omega : x = y) h
          · rcases h2' with h' | h'
            · exact absurd (by omega : y = z) h'
            · exact Or.inr (ih ys zs h h')
        · exact Or.inl hxz

/-! ## Helper lemmas about the sort and grouping pipeline -/

/-- When every entry's version key computation succeeds, the key pass of
the Python sort succeeds. -/
theorem mapM_versionKey_ok : ∀ {es : List Entry},
    (∀ e ∈ es, ∃ k, versionKey e.version = Except.ok k) →
    ∃ ks, es.mapM (fun e => versionKey e.version) = Except.ok ks := by
  intro es
  induction es with
  | nil => intro _; exact ⟨[], rfl⟩
  | cons e es ih =>
    intro h
    obtain ⟨k, hk⟩ := h e (by simp)
    obtain ⟨ks, hks⟩ := ih (fun x hx => h x (by simp [hx]))
    refine ⟨k :: ks, ?_⟩
    rw [List.mapM_cons, hk, hks]
    rfl

/-- When every entry's version key computation succeeds, the per-group
sort returns the stable descending insertion sort. -/
theorem sortEntriesDesc_ok {es : List Entry}
    (h : ∀ e ∈ es, ∃ k, versionKey e.version = Except.ok k) :
    sortEntriesDesc es = Except.ok (es.insertionSort entryGeVer) := by
  obtain ⟨ks, hks⟩ := mapM_versionKey_ok h
  unfold sortEntriesDesc
  rw [hks]
  rfl

/-- When every group's entries have computable version keys, the final
sorting pass of `generate_index` maps each group to its sorted form. -/
theorem groups_sorted_ok : ∀ (gs : List (String × List Entry)),
    (∀ g ∈ gs, ∀ e ∈ g.2, ∃ k, versionKey e.version = Except.ok k) →
    (gs.mapM (fun g => do
        let es ← sortEntriesDesc g.2
        pure (g.1, es))) =
      Except.ok (gs.map (fun g => (g.1, g.2.insertionSort entryGeVer))) := by
  intro gs
  induction gs with
  | nil => intro _; rfl
  | cons g gs ih =>
    intro h
    rw [List.mapM_cons]
    rw [show (do
          let es ← sortEntriesDesc g.2
          pure (g.1, es) : Except PyError (String × List Entry)) =
        Except.ok (g.1, g.2.insertionSort entryGeVer) from by
      rw [sortEntriesDesc_ok (h g (by simp))]; rfl]
    rw [ih (fun x hx e he => h x (by simp [hx]) e he)]
    rfl

/-- Entries of `addEntry gs e` are entries of `gs` or `e` itself. -/
theorem addEntry_pred {P : Entry → Prop} {gs : List (String × List Entry)} {e : Entry}
    (hg : ∀ q ∈ gs, ∀ x ∈ q.2, P x) (he : P e) :
    ∀ q ∈ addEntry gs e, ∀ x ∈ q.2, P x := by
  intro q hq x hx
  unfold addEntry at hq
  split at hq
  · obtain ⟨q0, hq0, rfl⟩ := List.mem_map.mp hq
    by_cases hname : q0.1 = e.name
    · simp only [if_pos hname] at hx
      rcases List.mem_append.mp hx with h | h
      · exact hg q0 hq0 x h
      · rw [List.mem_singleton.mp h]; exact he
    · simp only [if_neg hname] at hx
      exact hg q0 hq0 x hx
  · rcases List.mem_append.mp hq with h | h
    · exact hg q h x hx
    · rw [List.mem_singleton.mp h] at hx
      rw [List.mem_singleton.mp hx]; exact he

/-- `addEntry` keeps every group's entries named after the group key. -/
theorem addEntry_names {gs : List (String × List Entry)} {e : Entry}
    (hg : ∀ q ∈ gs, ∀ x ∈ q.2, x.name = q.1) :
    ∀ q ∈ addEntry gs e, ∀ x ∈ q.2, x.name = q.1 := by
  intro q hq x hx
  unfold addEntry at hq
  split at hq
  · obtain ⟨q0, hq0, rfl⟩ := List.mem_map.mp hq
    by_cases hname : q0.1 = e.name
    · simp only [if_pos hname] at hx ⊢
      rcases List.mem_append.mp hx with h | h
      · exact hg q0 hq0 x h
      · rw [List.mem_singleton.mp h, hname]
    · simp only [if_neg hname] at hx ⊢
      exact hg q0 hq0 x hx
  · rcases List.mem_append.mp hq with h | h
    · exact hg q h x hx
    · rw [List.mem_singleton.mp h] at hx ⊢
      rw [List.mem_singleton.mp hx]

/-- Entry predicate preservation through the grouping fold of
`generate_index`. -/
theorem foldl_addEntry_pred (P : Entry → Prop) (f : ManifestData → Entry) :
    ∀ (ms : List ManifestData) (gs : List (String × List Entry)),
    (∀ q ∈ gs, ∀ x ∈ q.2, P x) → (∀ m ∈ ms, P (f m)) →
    ∀ q ∈ ms.foldl (fun acc m => addEntry acc (f m)) gs, ∀ x ∈ q.2, P x := by
  intro ms
  induction ms with
  | nil => intro gs hg _ q hq; exact hg q hq
  | cons m ms ih =>
    intro gs hg hm q hq
    rw [List.foldl_cons] at hq
    exact ih (addEntry gs (f m)) (addEntry_pred hg (hm m (by simp)))
      (fun m' hm' => hm m' (by simp [hm'])) q hq

/-- Name-grouping invariant through the grouping fold of
`generate_index`. -/
theorem foldl_addEntry_names (f : ManifestData → Entry) :
    ∀ (ms : List ManifestData) (gs : List (String × List Entry)),
    (∀ q ∈ gs, ∀ x ∈ q.2, x.name = q.1) →
    ∀ q ∈ ms.foldl (fun acc m => addEntry acc (f m)) gs, ∀ x ∈ q.2, x.name = q.1 := by
  intro ms
  induction ms with
  | nil => intro gs hg q hq; exact hg q hq
  | cons m ms ih =>
    intro gs hg q hq
    rw [List.foldl_cons] at hq
    exact ih (addEntry gs (f m)) (addEntry_names hg) q hq

/-- `buildEntry` copies the manifest's version unchanged into the entry,
in every branch. -/
theorem buildEntry_version (tags : List String) (reg : Registry) (env : GenEnv)
    (m : ManifestData) : (buildEntry tags reg env m).version = m.version := by
  unfold buildEntry
  dsimp only
  split
  · split
    · split
      · split <;> rfl
      · rfl
    · rfl
  · rfl

/-- With no resolved release tags, `buildEntry` takes the no-release
branch: a fresh `created` timestamp and no `urls`/`digest`. -/
theorem buildEntry_noTags (reg : Registry) (env : GenEnv) (m : ManifestData) :
    buildEntry [] reg env m =
      { name := m.name, version := m.version, description := pyStrip m.description,
        harnesses := m.harnesses, keywords := m.keywords, deprecated := m.deprecated,
        created := some env.now } := rfl

/-- C1: for manifests whose versions are purely numeric dotted strings,
the generated index groups entries by rulebook name (every entry in a
group carries the group's name) and orders each group by version parsed
as an integer tuple, descending; concretely, for `foo` with versions
`1.2.0` and `1.10.0` the entry for `1.10.0` precedes the one for
`1.2.0`. -/
theorem index_groups_sorted_desc (ms : List ManifestData) (reg : Registry) (env : GenEnv)
    (h : ∀ m ∈ ms, ∃ k, versionKey m.version = Except.ok k) :
    (∃ idx, generate_index ms reg env = Except.ok idx ∧
       ∀ p ∈ idx.entries, (∀ e ∈ p.2, e.name = p.1) ∧ p.2.Sorted entryGeVer)
  ∧ generate_index [exFoo120, exFoo1100] failReg env0 =
      Except.ok { apiVersion := "cupcake.dev/v1", kind := "CatalogIndex",
                  generated := env0.now,
                  entries := [("foo",
                    [ { name := "foo", version := "1.10.0", description := "demo policies",
                        harnesses := ["claude"], keywords := [], deprecated := false,
                        created := some env0.now },
                      { name := "foo", version := "1.2.0", description := "demo policies",
                        harnesses := ["claude"], keywords := [], deprecated := false,
                        created := some env0.now } ])] } := by
  constructor
  · have hkeys : ∀ g ∈ ms.foldl
        (fun gs m => addEntry gs (buildEntry (get_release_tags reg.listOutcome) reg env m)) [],
        ∀ e ∈ g.2, ∃ k, versionKey e.version = Except.ok k := by
      refine foldl_addEntry_pred _ _ ms [] (by simp) ?_
      intro m hm
      rw [buildEntry_version]
      exact h m hm
    have hnames := foldl_addEntry_names
      (buildEntry (get_release_tags reg.listOutcome) reg env) ms [] (by simp)
    refine ⟨{ apiVersion := "cupcake.dev/v1", kind := "CatalogIndex", generated := env.now,
              entries := (ms.foldl
                (fun gs m => addEntry gs (buildEntry (get_release_tags reg.listOutcome) reg env m))
                []).map (fun g => (g.1, g.2.insertionSort entryGeVer)) }, ?_, ?_⟩
    · unfold generate_index
      dsimp only
      rw [groups_sorted_ok _ hkeys]
      rfl
    · intro p hp
      obtain ⟨g, hg, rfl⟩ := List.mem_map.mp hp
      constructor
      · intro e he
        exact hnames g hg e ((List.mem_insertionSort entryGeVer).mp he)
      · letI : IsTotal Entry entryGeVer :=
          ⟨fun a b => tupleLt_false_total (keyD a.version) (keyD b.version)⟩
        letI : IsTrans Entry entryGeVer :=
          ⟨fun _ _ _ h1 h2 => tupleLt_false_trans _ _ _ h1 h2⟩
        exact List.sorted_insertionSort entryGeVer g.2
  · rfl

/-- C1 witness at concrete input. -/
theorem index_groups_sorted_desc_witness :
    (∃ idx, generate_index [exFoo120, exFoo1100] failReg env0 = Except.ok idx ∧
       ∀ p ∈ idx.entries, (∀ e ∈ p.2, e.name = p.1) ∧ p.2.Sorted entryGeVer)
  ∧ generate_index [exFoo120, exFoo1100] failReg env0 =
      Except.ok { apiVersion := "cupcake.dev/v1", kind := "CatalogIndex",
                  generated := env0.now,
                  entries := [("foo",
                    [ { name := "foo", version := "1.10.0", description := "demo policies",
                        harnesses := ["claude"], keywords := [], deprecated := false,
                        created := some env0.now },
                      { name := "foo", version := "1.2.0", description := "demo policies",
                        harnesses := ["claude"], keywords := [], deprecated := false,
                        created := some env0.now } ])] } :=
  index_groups_sorted_desc [exFoo120, exFoo1100] failReg env0 (by
    intro m hm
    rcases List.mem_cons.mp hm with rfl | hm
    · exact ⟨[1, 2, 0], rfl⟩
    rcases List.mem_cons.mp hm with rfl | hm
    · exact ⟨[1, 10, 0], rfl⟩
    · cases hm)

/-- C2: when every external registry query fails, the bulk listing
degrades to the empty tag list and the detail lookup to an absent
record, and index generation still completes, giving every entry a
freshly generated `created` timestamp and neither `urls` nor `digest`. -/
theorem index_registry_failure_soft (ms : List ManifestData) (env : GenEnv)
    (h : ∀ m ∈ ms, ∃ k, versionKey m.version = Except.ok k) :
    get_release_tags GhOutcome.failure = []
  ∧ get_release_info GhOutcome.failure = none
  ∧ ∃ idx, generate_index ms failReg env = Except.ok idx ∧
      ∀ p ∈ idx.entries, ∀ e ∈ p.2,
        e.created = some env.now ∧ e.urls = none ∧ e.digest = none := by
  refine ⟨rfl, rfl, ?_⟩
  have hpred : ∀ g ∈ ms.foldl
      (fun gs m => addEntry gs (buildEntry (get_release_tags failReg.listOutcome) failReg env m)) [],
      ∀ e ∈ g.2,
        (e.created = some env.now ∧ e.urls = none ∧ e.digest = none)
        ∧ ∃ k, versionKey e.version = Except.ok k := by
    refine foldl_addEntry_pred _ _ ms [] (by simp) ?_
    intro m hm
    refine ⟨⟨rfl, rfl, rfl⟩, ?_⟩
    rw [buildEntry_version]
    exact h m hm
  refine ⟨{ apiVersion := "cupcake.dev/v1", kind := "CatalogIndex", generated := env.now,
            entries := (ms.foldl
              (fun gs m => addEntry gs (buildEntry (get_release_tags failReg.listOutcome) failReg env m))
              []).map (fun g => (g.1, g.2.insertionSort entryGeVer)) }, ?_, ?_⟩
  · unfold generate_index
    dsimp only
    rw [groups_sorted_ok _ (fun g hg e he => (hpred g hg e he).2)]
    rfl
  · intro p hp e he
    obtain ⟨g, hg, rfl⟩ := List.mem_map.mp hp
    exact (hpred g hg e ((List.mem_insertionSort entryGeVer).mp he)).1

/-- C2 witness at concrete input. -/
theorem index_registry_failure_soft_witness :
    get_release_tags GhOutcome.failure = []
  ∧ get_release_info GhOutcome.failure = none
  ∧ ∃ idx, generate_index [exFoo120] failReg env0 = Except.ok idx ∧
      ∀ p ∈ idx.entries, ∀ e ∈ p.2,
        e.created = some env0.now ∧ e.urls = none ∧ e.digest = none :=
  index_registry_failure_soft [exFoo120] env0 (by
    intro m hm
    rcases List.mem_cons.mp hm with rfl | hm
    · exact ⟨[1, 2, 0], rfl⟩
    · cases hm)

/-- C10: the version string `1.0.0-rc1` is accepted by the manifest
validator (the leading, unanchored version pattern matches, and a full
manifest carrying it validates with zero errors), yet its version key
computation raises `ValueError` on the third dot-separated segment, so
index generation over a rulebook with that version aborts with the
uncaught exception. -/
theorem version_pattern_sort_mismatch :
    versionPatternAccepts "1.0.0-rc1" = true
  ∧ validate_manifest exRcManifest "foo" = Except.ok []
  ∧ versionKey "1.0.0-rc1" = Except.error PyError.valueError
  ∧ generate_index [exFooRc] failReg env0 = Except.error PyError.valueError :=
  ⟨rfl, rfl, rfl, rfl⟩

/-- C8: on a manifest file that parses to the empty document,
validate-rulebook.py reports the single top-level error
`manifest.yaml is empty`, but generate-index.py's `parse_manifest`
raises an uncaught `AttributeError` (calling `.get` on `None`) instead
of reporting a parse failure. -/
theorem empty_manifest_parse_divergence :
    validate_rulebook exRB8 = Except.ok ([VErr.emptyManifest], [])
  ∧ parse_manifest (Except.ok Yaml.null) = Except.error PyError.attributeError
  ∧ parse_manifest (Except.error ()) = Except.ok none :=
  ⟨rfl, rfl, rfl⟩

/-- C3 counterexample: a helper file whose package `cupcake.helpers.util`
starts with the reserved prefix `cupcake.helpers` is not reported as a
reserved-namespace violation — the helper validator reports the generic
wrong-namespace error instead, refuting the claim that all three file
categories are checked against the reserved prefixes. -/
theorem helper_reserved_reported_generic_cex :
    pyStartsWith "cupcake.helpers.util" "cupcake.helpers" = true
  ∧ validate_helper_file (some "package cupcake.helpers.util\n")
      "cupcake.catalog.foo.helpers" "helpers/util.rego" =
      [NsErr.helperWrongNs "helpers/util.rego" "cupcake.helpers.util"
        "cupcake.catalog.foo.helpers"]
  ∧ (NsErr.helperWrongNs "helpers/util.rego" "cupcake.helpers.util"
      "cupcake.catalog.foo.helpers").isReserved = false :=
  ⟨rfl, rfl, rfl⟩

/-- C3 (amended): only policy files under `policies/` are checked
against the reserved prefixes — there the check runs before the
expected-prefix rule and short-circuits it — while the helper and
system validators never produce a reserved-namespace violation. -/
theorem reserved_check_only_policy_files :
    (∀ content pkg expPfx rel res,
      packagePatternSearch content = some pkg →
      reservedNamespaces.find? (fun r => pyStartsWith pkg r) = some res →
      validate_policy_file (some content) expPfx rel =
        [NsErr.reservedNamespace rel pkg res expPfx])
  ∧ (∀ content expPfx rel, ∀ e ∈ validate_helper_file content expPfx rel,
      e.isReserved = false)
  ∧ (∀ content expPkg rel, ∀ e ∈ validate_system_file content expPkg rel,
      e.isReserved = false) := by
  refine ⟨?_, ?_, ?_⟩
  · intro content pkg expPfx rel res hsearch hfind
    simp only [validate_policy_file, hsearch, hfind]
  · intro content expPfx rel e he
    rcases content with _ | text
    · simp only [validate_helper_file] at he
      rw [List.mem_singleton.mp he]; rfl
    · simp only [validate_helper_file] at he
      rcases hs : packagePatternSearch text with _ | pkg <;> simp only [hs] at he
      · rw [List.mem_singleton.mp he]; rfl
      · split at he
        · cases he
        · rw [List.mem_singleton.mp he]; rfl
  · intro content expPkg rel e he
    rcases content with _ | text
    · simp only [validate_system_file] at he
      rw [List.mem_singleton.mp he]; rfl
    · simp only [validate_system_file] at he
      rcases hs : packagePatternSearch text with _ | pkg <;> simp only [hs] at he
      · rw [List.mem_singleton.mp he]; rfl
      · split at he
        · rw [List.mem_singleton.mp he]; rfl
        · cases he

/-- C3 (amended) witness at concrete inputs. -/
theorem reserved_check_only_policy_files_witness :
    validate_policy_file (some "package cupcake.global.audit\n")
      "cupcake.catalog.bar.policies" "policies/claude/p.rego" =
      [NsErr.reservedNamespace "policies/claude/p.rego" "cupcake.global.audit"
        "cupcake.global" "cupcake.catalog.bar.policies"]
  ∧ (NsErr.helperWrongNs "helpers/h.rego" "cupcake.system.q"
      "cupcake.catalog.bar.helpers").isReserved = false := by
  constructor
  · exact reserved_check_only_policy_files.1
      "package cupcake.global.audit\n" "cupcake.global.audit"
      "cupcake.catalog.bar.policies" "policies/claude/p.rego" "cupcake.global" rfl rfl
  · refine reserved_check_only_policy_files.2.1
      (some "package cupcake.system.q\n") "cupcake.catalog.bar.helpers" "helpers/h.rego" _ ?_
    rw [show validate_helper_file (some "package cupcake.system.q\n")
        "cupcake.catalog.bar.helpers" "helpers/h.rego" =
        [NsErr.helperWrongNs "helpers/h.rego" "cupcake.system.q"
          "cupcake.catalog.bar.helpers"] from rfl]
    exact List.mem_singleton_self _

/-- C4: a policy file whose extracted package starts with a reserved
prefix yields exactly the one reserved-namespace error — a singleton
error list, with no additional generic expected-prefix error. -/
theorem policy_reserved_single_error (content pkg expPfx rel res : String)
    (hsearch : packagePatternSearch content = some pkg)
    (hres : res ∈ reservedNamespaces) (hstart : pyStartsWith pkg res = true) :
    ∃ res', res' ∈ reservedNamespaces ∧ pyStartsWith pkg res' = true ∧
      validate_policy_file (some content) expPfx rel =
        [NsErr.reservedNamespace rel pkg res' expPfx] := by
  have hfind : (reservedNamespaces.find? (fun r => pyStartsWith pkg r)).isSome := by
    rw [List.find?_isSome]
    exact ⟨res, hres, hstart⟩
  obtain ⟨res', hfind'⟩ := Option.isSome_iff_exists.mp hfind
  refine ⟨res', List.mem_of_find?_eq_some hfind', List.find?_some hfind', ?_⟩
  simp only [validate_policy_file, hsearch, hfind']

/-- C4 witness at concrete input. -/
theorem policy_reserved_single_error_witness :
    ∃ res', res' ∈ reservedNamespaces ∧
      pyStartsWith "cupcake.policies.restricted" res' = true ∧
      validate_policy_file (some "package cupcake.policies.restricted\n")
        "cupcake.catalog.foo.policies" "policies/claude/deny.rego" =
        [NsErr.reservedNamespace "policies/claude/deny.rego" "cupcake.policies.restricted"
          res' "cupcake.catalog.foo.policies"] :=
  policy_reserved_single_error "package cupcake.policies.restricted\n"
    "cupcake.policies.restricted" "cupcake.catalog.foo.policies"
    "policies/claude/deny.rego" "cupcake.policies" rfl (by decide) rfl

/-- C5: a system file with an extracted package is in error exactly when
the package differs from the expected system package derived from the
normalized rulebook name — a package that merely extends it yields the
exact-match error — and `validate_namespace` validates every file under
`system/` against exactly that expected package. -/
theorem system_file_exact_match (name content pkg rel : String)
    (hsearch : packagePatternSearch content = some pkg) :
    (validate_system_file (some content) (expectedSystemPkg name) rel = []
      ↔ pkg = expectedSystemPkg name)
  ∧ (pkg ≠ expectedSystemPkg name →
      validate_system_file (some content) (expectedSystemPkg name) rel =
        [NsErr.systemNotExact rel pkg (expectedSystemPkg name)])
  ∧ (∀ (pfs : List (String × Option String)) (hfs sfs : Option (List (String × Option String))),
      name ≠ "" → pfs ≠ [] →
      validate_namespace ⟨some name, some pfs, hfs, sfs⟩ =
        (pfs.flatMap fun f => validate_policy_file f.2 (expectedPoliciesNs name) f.1)
        ++ ((hfs.getD []).flatMap fun f => validate_helper_file f.2 (expectedHelpersNs name) f.1)
        ++ ((sfs.getD []).flatMap fun f => validate_system_file f.2 (expectedSystemPkg name) f.1)) := by
  refine ⟨?_, ?_, ?_⟩
  · by_cases hne : pkg = expectedSystemPkg name
    · simp [validate_system_file, hsearch, hne]
    · simp [validate_system_file, hsearch, hne]
  · intro hne
    simp [validate_system_file, hsearch, hne]
  · intro pfs hfs sfs hname hpfs
    simp only [validate_namespace]
    rw [if_neg hname]
    rw [if_neg (by simpa using hpfs)]
    rcases hfs with _ | hl <;> rcases sfs with _ | sl <;> simp

/-- C5 witness at concrete input: a package extending the expected
system package by one segment triggers the exact-match error. -/
theorem system_file_exact_match_witness :
    (validate_system_file (some "package cupcake.catalog.foo.system.extra\n")
        (expectedSystemPkg "foo") "system/evaluate.rego" = []
      ↔ "cupcake.catalog.foo.system.extra" = expectedSystemPkg "foo")
  ∧ validate_system_file (some "package cupcake.catalog.foo.system.extra\n")
      (expectedSystemPkg "foo") "system/evaluate.rego" =
      [NsErr.systemNotExact "system/evaluate.rego" "cupcake.catalog.foo.system.extra"
        (expectedSystemPkg "foo")] := by
  have h := system_file_exact_match "foo" "package cupcake.catalog.foo.system.extra\n"
    "cupcake.catalog.foo.system.extra" "system/evaluate.rego" rfl
  exact ⟨h.1, h.2.1 (by decide)⟩

/-- Bind of a successful `Except` computation reduces to the
continuation. -/
theorem except_bind_ok {ε α β : Type} (a : α) (f : α → Except ε β) :
    (Except.ok a : Except ε α) >>= f = f a := rfl

/-- C6 counterexample: a manifest with a wrong `apiVersion` and no
`metadata` yields three errors — the claim's "exactly the single
metadata error is returned" fails because the `apiVersion` and `kind`
errors collected before the metadata check are returned with it. -/
theorem metadata_absent_not_single_error_cex :
    validate_manifest (.dict [("apiVersion", .str "wrong/v9")]) "d" =
      Except.ok [VErr.badApiVersion (.str "wrong/v9"), VErr.badKind .null, VErr.metadataRequired]
  ∧ validate_manifest (.dict [("apiVersion", .str "wrong/v9")]) "d" ≠
      Except.ok [VErr.metadataRequired] := by
  refine ⟨rfl, ?_⟩
  intro h
  rw [show validate_manifest (.dict [("apiVersion", .str "wrong/v9")]) "d" =
      Except.ok [VErr.badApiVersion (.str "wrong/v9"), VErr.badKind .null, VErr.metadataRequired]
      from rfl] at h
  simp at h

/-- Bind of a pure `Except` computation reduces to the continuation. -/
theorem except_pure_bind {ε α β : Type} (a : α) (f : α → Except ε β) :
    (pure a : Except ε α) >>= f = f a := rfl

set_option maxRecDepth 4000

/-- C6 (amended): for a mapping manifest, when `metadata` is absent or
not a mapping, the result is the `apiVersion` and `kind` errors (when
applicable) followed by exactly the one metadata error, and no
field-level checks run; when `metadata` is a mapping (and the name field
cannot trip the script's `TypeError`), every field check runs and all
applicable errors are concatenated in order, without short-circuiting. -/
theorem manifest_checks_aggregate (kvs : List (String × Yaml)) (dirName : String) :
    ((yGet (.dict kvs) "metadata").isDict = false →
      validate_manifest (.dict kvs) dirName =
        Except.ok (apiVersionCheck (.dict kvs) ++ kindCheck (.dict kvs) ++ [VErr.metadataRequired]))
  ∧ (∀ mkvs, yGet (.dict kvs) "metadata" = .dict mkvs →
      ((yGet (.dict mkvs) "name").truthy = false ∨ (∃ s, yGet (.dict mkvs) "name" = .str s)) →
      validate_manifest (.dict kvs) dirName =
        Except.ok (apiVersionCheck (.dict kvs) ++ kindCheck (.dict kvs) ++
          nameCheck (.dict mkvs) dirName ++ versionCheck (.dict mkvs) ++
          descriptionCheck (.dict mkvs) ++ harnessesCheck (.dict mkvs) ++
          maintainersCheck (.dict mkvs))) := by
  constructor
  · intro hmd
    simp only [yGet] at hmd
    unfold validate_manifest
    simp only [pyGet, except_bind_ok]
    rcases hY2 : (kvs.lookup "metadata").getD Yaml.null with _ | b | n | s | xs | mkvs
    · simp only [apiVersionCheck, kindCheck, yGet, List.append_assoc]; rfl
    · simp only [apiVersionCheck, kindCheck, yGet, List.append_assoc]; rfl
    · simp only [apiVersionCheck, kindCheck, yGet, List.append_assoc]; rfl
    · simp only [apiVersionCheck, kindCheck, yGet, List.append_assoc]; rfl
    · simp only [apiVersionCheck, kindCheck, yGet, List.append_assoc]; rfl
    · rw [hY2] at hmd; simp [Yaml.isDict] at hmd
  · intro mkvs hmd hname
    simp only [yGet] at hmd
    unfold validate_manifest
    simp only [pyGet, except_bind_ok, hmd]
    rcases hname with hT | ⟨s, hs⟩
    · simp only [yGet] at hT
      simp [hT, except_pure_bind, apiVersionCheck, kindCheck, nameCheck, versionCheck,
        descriptionCheck, harnessesCheck, maintainersCheck, yGet, yGetD, List.append_assoc]
      try rfl
    · simp only [yGet] at hs
      simp only [hs, Yaml.truthy, except_pure_bind, except_bind_ok]
      by_cases hse : s = ""
      · simp [hse, except_pure_bind, apiVersionCheck, kindCheck, nameCheck, versionCheck,
          descriptionCheck, harnessesCheck, maintainersCheck, yGet, yGetD, hs,
          Yaml.truthy, List.append_assoc]
        try rfl
      · simp [hse, except_pure_bind, apiVersionCheck, kindCheck, nameCheck, versionCheck,
          descriptionCheck, harnessesCheck, maintainersCheck, yGet, yGetD, hs,
          Yaml.truthy, List.append_assoc]
        try rfl

/-- The harness loop of `validate_structure`, over string harnesses,
appends exactly the per-harness check results in order. -/
theorem foldlM_harness_strings (fs : FS) : ∀ (hs : List String) (acc : List VErr),
    (hs.map Yaml.str).foldlM (harnessStep fs) acc
      = Except.ok (acc ++ hs.flatMap (harnessStructCheck fs)) := by
  intro hs
  induction hs with
  | nil => intro acc; simp; rfl
  | cons h t ih =>
    intro acc
    rw [List.map_cons, List.foldlM_cons]
    by_cases hd : fs.harnessDirExists h = true
    · by_cases he : (fs.harnessRegoFiles h).isEmpty = true
      · simp only [harnessStep, hd, he, Bool.not_true, Bool.false_eq_true, if_false, if_true,
          except_pure_bind]
        rw [ih]
        simp [harnessStructCheck, hd, he, List.append_assoc]
      · simp only [harnessStep, hd, he, Bool.not_true, Bool.false_eq_true, if_false,
          except_pure_bind]
        rw [ih]
        simp [harnessStructCheck, hd, he, List.append_assoc]
    · simp only [Bool.not_eq_true] at hd
      simp only [harnessStep, hd, Bool.not_false, if_true, except_pure_bind]
      rw [ih]
      simp [harnessStructCheck, hd, List.append_assoc]

/-- Every error produced by the harness loop concerns a harness. -/
theorem flatMap_harness_only (fs : FS) (hs : List String) :
    ∀ e ∈ hs.flatMap (harnessStructCheck fs),
      ∃ s, e = VErr.missingHarnessDir s ∨ e = VErr.noRegoFiles s := by
  intro e he
  obtain ⟨s, _, hin⟩ := List.mem_flatMap.mp he
  unfold harnessStructCheck at hin
  split at hin
  · exact ⟨s, Or.inl (List.mem_singleton.mp hin)⟩
  · split at hin
    · exact ⟨s, Or.inr (List.mem_singleton.mp hin)⟩
    · cases hin

/-- Membership of the missing-harness-directory error in the loop's
output, for a declared harness. -/
theorem mem_flatMap_missingDir (fs : FS) (hs : List String) (h : String) (hh : h ∈ hs) :
    VErr.missingHarnessDir h ∈ hs.flatMap (harnessStructCheck fs)
      ↔ fs.harnessDirExists h = false := by
  constructor
  · intro hmem
    obtain ⟨s, _, hin⟩ := List.mem_flatMap.mp hmem
    unfold harnessStructCheck at hin
    split at hin
    · obtain rfl : s = h := by
        have := List.mem_singleton.mp hin
        cases this
        rfl
      simpa using ‹(!fs.harnessDirExists s) = true›
    · split at hin
      · cases List.mem_singleton.mp hin
      · cases hin
  · intro hdir
    refine List.mem_flatMap.mpr ⟨h, hh, ?_⟩
    unfold harnessStructCheck
    simp [hdir]

/-- Membership of the no-policy-files error in the loop's output, for a
declared harness. -/
theorem mem_flatMap_noRego (fs : FS) (hs : List String) (h : String) (hh : h ∈ hs) :
    VErr.noRegoFiles h ∈ hs.flatMap (harnessStructCheck fs)
      ↔ (fs.harnessDirExists h = true ∧ fs.harnessRegoFiles h = []) := by
  constructor
  · intro hmem
    obtain ⟨s, _, hin⟩ := List.mem_flatMap.mp hmem
    unfold harnessStructCheck at hin
    split at hin
    · cases List.mem_singleton.mp hin
    · split at hin
      · obtain rfl : s = h := by
          have := List.mem_singleton.mp hin
          cases this
          rfl
        refine ⟨by simpa using ‹¬(!fs.harnessDirExists s) = true›, ?_⟩
        simpa [List.isEmpty_iff] using ‹(fs.harnessRegoFiles s).isEmpty = true›
      · cases hin
  · rintro ⟨hdir, hreg⟩
    refine List.mem_flatMap.mpr ⟨h, hh, ?_⟩
    unfold harnessStructCheck
    simp [hdir, hreg]

/-- The harness loop never produces the README error. -/
theorem not_mem_flatMap_readme (fs : FS) (hs : List String) :
    VErr.readmeRequired ∉ hs.flatMap (harnessStructCheck fs) := by
  intro h
  obtain ⟨s, h' | h'⟩ := flatMap_harness_only fs hs _ h <;> cases h'

/-- The harness loop never produces the shared-entrypoint error. -/
theorem not_mem_flatMap_eval (fs : FS) (hs : List String) :
    VErr.missingEvaluateRego ∉ hs.flatMap (harnessStructCheck fs) := by
  intro h
  obtain ⟨s, h' | h'⟩ := flatMap_harness_only fs hs _ h <;> cases h'

/-- C7: for a rulebook whose manifest loads, structure validation
reports the missing-README error exactly when README.md is absent;
absence of `policies/` halts the remaining checks, returning only the
README error (if any) and the `policies/` error; with `policies/`
present, the `system/evaluate.rego` error appears exactly when that
file is absent, and for every declared harness the missing-directory
error appears exactly when `policies/<harness>/` is absent and the
no-policy-files error exactly when the directory exists but holds no
`.rego` file. -/
theorem structure_checks_complete (fs : FS) (hs : List String) :
    ∃ out, validate_structure fs (hs.map Yaml.str) = Except.ok out ∧
      ((VErr.readmeRequired ∈ out ↔ fs.readmeExists = false)
    ∧ (fs.policiesDirExists = false →
        out = (if fs.readmeExists then [] else [VErr.readmeRequired]) ++ [VErr.policiesDirRequired])
    ∧ (fs.policiesDirExists = true →
        (VErr.missingEvaluateRego ∈ out ↔ fs.evaluateRegoExists = false)
      ∧ ∀ h ∈ hs,
          (VErr.missingHarnessDir h ∈ out ↔ fs.harnessDirExists h = false)
        ∧ (VErr.noRegoFiles h ∈ out ↔
            (fs.harnessDirExists h = true ∧ fs.harnessRegoFiles h = [])))) := by
  by_cases hp : fs.policiesDirExists = true
  · refine ⟨((if fs.readmeExists then [] else [VErr.readmeRequired]) ++
        (if fs.evaluateRegoExists then [] else [VErr.missingEvaluateRego])) ++
        hs.flatMap (harnessStructCheck fs), ?_, ?_, ?_, ?_⟩
    · unfold validate_structure
      simp only [hp, Bool.not_true, Bool.false_eq_true, if_false]
      rw [foldlM_harness_strings]
    · constructor
      · intro hmem
        rcases List.mem_append.mp hmem with hm | hm
        · rcases List.mem_append.mp hm with hm2 | hm2
          · by_cases hr : fs.readmeExists = true
            · simp [hr] at hm2
            · simpa using hr
          · by_cases hev : fs.evaluateRegoExists = true <;> simp [hev] at hm2
        · exact absurd hm (not_mem_flatMap_readme fs hs)
      · intro hr
        refine List.mem_append.mpr (Or.inl (List.mem_append.mpr (Or.inl ?_)))
        simp [hr]
    · intro hcon
      rw [hcon] at hp
      simp at hp
    · intro _
      refine ⟨?_, ?_⟩
      · constructor
        · intro hmem
          rcases List.mem_append.mp hmem with hm | hm
          · rcases List.mem_append.mp hm with hm2 | hm2
            · by_cases hr : fs.readmeExists = true <;> simp [hr] at hm2
            · by_cases hev : fs.evaluateRegoExists = true
              · simp [hev] at hm2
              · simpa using hev
          · exact absurd hm (not_mem_flatMap_eval fs hs)
        · intro hev
          refine List.mem_append.mpr (Or.inl (List.mem_append.mpr (Or.inr ?_)))
          simp [hev]
      · intro h hh
        refine ⟨?_, ?_⟩
        · constructor
          · intro hmem
            rcases List.mem_append.mp hmem with hm | hm
            · rcases List.mem_append.mp hm with hm2 | hm2
              · by_cases hr : fs.readmeExists = true <;> simp [hr] at hm2
              · by_cases hev : fs.evaluateRegoExists = true <;> simp [hev] at hm2
            · exact (mem_flatMap_missingDir fs hs h hh).mp hm
          · intro hdir
            exact List.mem_append.mpr (Or.inr ((mem_flatMap_missingDir fs hs h hh).mpr hdir))
        · constructor
          · intro hmem
            rcases List.mem_append.mp hmem with hm | hm
            · rcases List.mem_append.mp hm with hm2 | hm2
              · by_cases hr : fs.readmeExists = true <;> simp [hr] at hm2
              · by_cases hev : fs.evaluateRegoExists = true <;> simp [hev] at hm2
            · exact (mem_flatMap_noRego fs hs h hh).mp hm
          · intro hcond
            exact List.mem_append.mpr (Or.inr ((mem_flatMap_noRego fs hs h hh).mpr hcond))
  · have hp' : fs.policiesDirExists = false := by simpa using hp
    refine ⟨(if fs.readmeExists then [] else [VErr.readmeRequired]) ++ [VErr.policiesDirRequired],
      ?_, ?_, ?_, ?_⟩
    · unfold validate_structure
      simp only [hp', Bool.not_false, if_true]
      rfl
    · constructor
      · intro hmem
        rcases List.mem_append.mp hmem with hm | hm
        · by_cases hr : fs.readmeExists = true
          · simp [hr] at hm
          · simpa using hr
        · cases List.mem_singleton.mp hm
      · intro hr
        refine List.mem_append.mpr (Or.inl ?_)
        simp [hr]
    · intro _
      rfl
    · intro hcon
      rw [hcon] at hp
      exact absurd rfl hp

/-- C6 (amended) witness: a manifest with both a wrong `apiVersion` and
a wrong `kind` and valid metadata yields the full concatenation of
check results — concretely, both errors. -/
theorem manifest_checks_aggregate_witness :
    validate_manifest exManifest6 "foo" =
      Except.ok (apiVersionCheck exManifest6 ++ kindCheck exManifest6 ++
        nameCheck (.dict
          [ ("name", .str "foo"), ("version", .str "1.0.0"),
            ("description", .str "a fine description"),
            ("harnesses", .list [.str "claude"]) ]) "foo" ++
        versionCheck (.dict
          [ ("name", .str "foo"), ("version", .str "1.0.0"),
            ("description", .str "a fine description"),
            ("harnesses", .list [.str "claude"]) ]) ++
        descriptionCheck (.dict
          [ ("name", .str "foo"), ("version", .str "1.0.0"),
            ("description", .str "a fine description"),
            ("harnesses", .list [.str "claude"]) ]) ++
        harnessesCheck (.dict
          [ ("name", .str "foo"), ("version", .str "1.0.0"),
            ("description", .str "a fine description"),
            ("harnesses", .list [.str "claude"]) ]) ++
        maintainersCheck (.dict
          [ ("name", .str "foo"), ("version", .str "1.0.0"),
            ("description", .str "a fine description"),
            ("harnesses", .list [.str "claude"]) ]))
  ∧ validate_manifest exManifest6 "foo" =
      Except.ok [VErr.badApiVersion (.str "wrong/v9"), VErr.badKind (.str "Widget")] := by
  constructor
  · exact (manifest_checks_aggregate
      [ ("apiVersion", .str "wrong/v9"), ("kind", .str "Widget"),
        ("metadata", .dict
          [ ("name", .str "foo"), ("version", .str "1.0.0"),
            ("description", .str "a fine description"),
            ("harnesses", .list [.str "claude"]) ]) ] "foo").2
      [ ("name", .str "foo"), ("version", .str "1.0.0"),
        ("description", .str "a fine description"),
        ("harnesses", .list [.str "claude"]) ] rfl (Or.inr ⟨"foo", rfl⟩)
  · rfl

/-- C7 witness at concrete input: README and the shared entrypoint are
missing and the declared harness directory is empty, so exactly those
errors are present. -/
theorem structure_checks_complete_witness :
    ∃ out, validate_structure exFS7 (["claude"].map Yaml.str) = Except.ok out ∧
      VErr.readmeRequired ∈ out ∧ VErr.missingEvaluateRego ∈ out ∧
      VErr.noRegoFiles "claude" ∈ out ∧ VErr.missingHarnessDir "claude" ∉ out := by
  obtain ⟨out, hout, h1, _, h3⟩ := structure_checks_complete exFS7 ["claude"]
  have h3' := h3 rfl
  refine ⟨out, hout, h1.mpr rfl, h3'.1.mpr rfl, ?_, ?_⟩
  · exact ((h3'.2 "claude" (by simp)).2).mpr ⟨by decide, rfl⟩
  · intro hmem
    have hcon := ((h3'.2 "claude" (by simp)).1).mp hmem
    simp [exFS7] at hcon

/-- Bind of a failed `Except` computation propagates the error. -/
theorem except_error_bind {ε α β : Type} (e : ε) (f : α → Except ε β) :
    (Except.error e : Except ε α) >>= f = Except.error e := rfl

/-- `validate_structure` never reads the CHANGELOG.md fact. -/
theorem validate_structure_changelog (fs : FS) (b : Bool) (harnesses : List Yaml) :
    validate_structure { fs with changelogExists := b } harnesses =
      validate_structure fs harnesses := rfl

/-- The error component of `validate_rulebook` does not depend on
whether CHANGELOG.md exists. -/
theorem validate_rulebook_errs_changelog (rb : Rulebook) (b : Bool) :
    (validate_rulebook (setChangelog rb b)).map Prod.fst =
      (validate_rulebook rb).map Prod.fst := by
  unfold validate_rulebook setChangelog
  dsimp only
  by_cases hm : rb.manifestExists = true
  · rcases hL : rb.manifestLoad with e | y
    · simp [hm, hL]
    · simp only [hm, hL, Bool.not_true, Bool.false_eq_true, if_false]
      by_cases ht : y.truthy = true
      · simp only [ht, Bool.not_true, Bool.false_eq_true, if_false]
        cases h1 : validate_manifest y rb.dirName with
        | error e1 => simp [h1, except_error_bind]
        | ok errs1 =>
          simp only [h1, except_bind_ok]
          cases h2 : pyGetD y "metadata" (.dict []) with
          | error e2 => simp [h2, except_error_bind]
          | ok md =>
            simp only [h2, except_bind_ok]
            cases h3 : pyGetD md "harnesses" (.list []) with
            | error e3 => simp [h3, except_error_bind]
            | ok hsv =>
              simp only [h3, except_bind_ok]
              by_cases h4 : hsv.truthy = true
              · simp only [h4, if_true]
                cases hsv with
                | list xs =>
                  dsimp only
                  rw [validate_structure_changelog]
                  cases h5 : validate_structure rb.fs xs with
                  | error e5 => simp [h5, except_error_bind, Except.map]
                  | ok se => simp [h5, except_bind_ok, Except.map]
                | null => rfl
                | bool b2 => rfl
                | int n => rfl
                | str s => rfl
                | dict kvs => rfl
              · simp only [h4, Bool.false_eq_true, if_false]
                rfl
      · simp [ht]
  · simp [hm]

/-- `rbExitCode` as a map over the validation outcome. -/
theorem rbExitCode_eq (rb : Rulebook) :
    rbExitCode rb = (validate_rulebook rb).map (fun res => if res.1.isEmpty then 0 else 1) := by
  unfold rbExitCode
  cases h : validate_rulebook rb <;> simp [h, Except.map]

/-- C9: with a rulebook reaching validation, the process exit code is 1
exactly when the collected error list is non-empty and 0 exactly when
it is empty; the CHANGELOG warning fact never changes the exit code. -/
theorem exit_code_errors_only (rb : Rulebook) (errs : List VErr) (warns : List WarnMsg)
    (h : validate_rulebook rb = Except.ok (errs, warns)) :
    ((rbExitCode rb = Except.ok 1 ↔ errs ≠ []) ∧ (rbExitCode rb = Except.ok 0 ↔ errs = []))
  ∧ ∀ b, rbExitCode (setChangelog rb b) = rbExitCode rb := by
  have hx : rbExitCode rb = Except.ok (if errs.isEmpty then 0 else 1) := by
    unfold rbExitCode
    rw [h]
    rfl
  refine ⟨⟨?_, ?_⟩, ?_⟩
  · rw [hx]
    rcases errs with _ | ⟨e, es⟩ <;> simp
  · rw [hx]
    rcases errs with _ | ⟨e, es⟩ <;> simp
  · intro b
    have hmap := validate_rulebook_errs_changelog rb b
    rw [rbExitCode_eq, rbExitCode_eq]
    cases h1 : validate_rulebook (setChangelog rb b) <;> cases h2 : validate_rulebook rb <;>
      rw [h1, h2] at hmap <;> simp [Except.map] at hmap ⊢
    · exact hmap
    · rw [hmap]

/-- C9 witness: a rulebook with zero errors and the CHANGELOG warning
exits 0, and toggling the CHANGELOG fact does not change the exit
code. -/
theorem exit_code_errors_only_witness :
    rbExitCode exRB9 = Except.ok 0 ∧ rbExitCode (setChangelog exRB9 true) = rbExitCode exRB9 := by
  have h := exit_code_errors_only exRB9 [] [WarnMsg.changelogRecommended] rfl
  exact ⟨h.1.2.mpr rfl, h.2 true⟩
